import Mathlib

/-!
Shallow embedding of the record-integrity pipeline of the qt-full-stack-challenge
repository (NestJS backend `UsersService` / `CryptoService` / `ProtobufService`,
Next.js frontend `useUsers` / `utils/crypto.ts` / `utils/protobuf.ts`).

Modelling conventions:
* Pure TypeScript functions become Lean functions; stateful services become
  explicit state passing; `throw` becomes `Except`.
* Platform primitives that are not part of the repository (Node `crypto`
  `createHash`/`sign`/`verify`/`generateKeyPairSync`, WebCrypto
  `importKey`/`verify`, base64 `Buffer.toString('base64')`/`atob`,
  `Date.prototype.toISOString`, and the protobufjs wire codec) are modelled as
  abstract operation bundles (`JsRuntime`, `ProtoCodec`) whose fields carry the
  platform's documented contracts as proof obligations; every repository-level
  definition is translated from the repository source on top of them.
* An `Except .error` result models a thrown exception: the store value is not
  threaded through an error, which faithfully captures that every `throw` in the
  source happens before `repository.save`/`repository.update` persists anything.
-/

namespace UD

/-- `UserRole` enum from `user.entity.ts` (`'admin' | 'user'`). -/
inductive UserRole where
  | admin
  | user
deriving DecidableEq

/-- String value of the TS enum member (the entity stores the string itself). -/
def UserRole.label : UserRole → String
  | .admin => "admin"
  | .user => "user"

/-- `UserStatus` enum from `user.entity.ts` (`'active' | 'inactive'`). -/
inductive UserStatus where
  | active
  | inactive
deriving DecidableEq

/-- String value of the TS enum member. -/
def UserStatus.label : UserStatus → String
  | .active => "active"
  | .inactive => "inactive"

/-- The persisted `users` row of `user.entity.ts`.  `createdAt` (a JS `Date`
set once by `@CreateDateColumn`) is modelled as an epoch-milliseconds `Nat`. -/
structure UserRec where
  id : Nat
  email : String
  role : UserRole
  status : UserStatus
  createdAt : Nat
  emailHash : String
  signature : String
deriving DecidableEq

/-- ASCII fragment of JavaScript whitespace (` `, tab, LF, VT, FF, CR); this is
the character class `\s` restricted to ASCII, used by `trim` and the email
regular expression. -/
def isJsSpace (c : Char) : Bool :=
  c == ' ' || c == '\t' || c == '\n' || c == '\x0b' || c == '\x0c' || c == '\r'

/-- `String.prototype.trim` over the char list: drop whitespace at both ends. -/
def trimChars (l : List Char) : List Char :=
  ((l.dropWhile isJsSpace).reverse.dropWhile isJsSpace).reverse

/-- The normalization step of `CryptoService.hashEmail`:
`email.toLowerCase().trim()` (lowercase, then trim). -/
def normalizeEmail (email : String) : String :=
  String.mk (trimChars (email.data.map Char.toLower))

/-- A character matched by the regex class `[^\s@]`. -/
def isEmailAtomChar (c : Char) : Bool :=
  !(isJsSpace c) && c != '@'

/-- `l` contains a `'.'` that is neither its first nor its last character;
this is exactly when `l` splits as `y ++ '.' :: z` with `y`, `z` nonempty. -/
def hasInternalDot (l : List Char) : Bool :=
  ((l.drop 1).dropLast).contains '.'

/-- `UsersService.isValidEmail`: the test of `/^[^\s@]+@[^\s@]+\.[^\s@]+$/`.
The regex matches exactly the strings of the form `x ++ "@" ++ y ++ "." ++ z`
with `x`, `y`, `z` nonempty and free of whitespace and `'@'` (the class
`[^\s@]` contains `'.'`, so the `\.` may be any internal dot of the domain
part).  Equivalently: exactly one `'@'` (so `splitOn '@'` yields two parts),
a nonempty local part, both parts built from `[^\s@]` characters, and a dot at
an internal position of the domain part. -/
def isValidEmail (s : String) : Bool :=
  match s.data.splitOn '@' with
  | [localPart, domain] =>
      !localPart.isEmpty && localPart.all isEmailAtomChar &&
        domain.all isEmailAtomChar && hasInternalDot domain
  | _ => false

/-- Signature-scheme digest algorithm selector (`'RSA-SHA256'` names the
SHA-256 member of this family; WebCrypto selects it via `hash: "SHA-256"`). -/
inductive SigHashAlg where
  | sha256
  | sha384
  | sha512
deriving DecidableEq

/-- RSA padding mode selector (`constants.RSA_PKCS1_PADDING` vs PSS;
WebCrypto's `RSASSA-PKCS1-v1_5` is the PKCS#1 v1.5 mode). -/
inductive RsaPadding where
  | pkcs1v15
  | pss
deriving DecidableEq

/-- UTF-8 encoding of one code point (what `Buffer.from(s, 'utf8')` and
`TextEncoder` produce per character). -/
def utf8EncodeCp (n : Nat) : List Nat :=
  if n < 0x80 then [n]
  else if n < 0x800 then [0xc0 + n / 64, 0x80 + n % 64]
  else if n < 0x10000 then [0xe0 + n / 4096, 0x80 + (n / 64) % 64, 0x80 + n % 64]
  else [0xf0 + n / 262144, 0x80 + (n / 4096) % 64, 0x80 + (n / 64) % 64, 0x80 + n % 64]

/-- UTF-8 bytes of a string, as `Nat`s below 256. -/
def utf8Bytes (s : String) : List Nat :=
  s.data.flatMap (fun c => utf8EncodeCp c.toNat)

/-- Lowercase hexadecimal digit test (`0`-`9`, `a`-`f`). -/
def isLowerHexChar (c : Char) : Bool :=
  c.isDigit || ('a' ≤ c && c ≤ 'f')

/-- Abstract bundle of the platform primitives used by the pipeline, together
with their documented contracts.  Keys are carried as their PEM text.

* `sha384hex`: `createHash('sha384').update(·, 'utf8').digest('hex')` — a
  deterministic function of the input string whose output is a 96-character
  lowercase hex digest (Node's documented behaviour for SHA-384 hex digests).
* `rsaSignB64 alg pad priv data`: `sign(alg, data, {key: priv, padding: pad})`
  followed by `.toString('base64')`.
* `rsaVerifyB64 alg pad pub data sigB64`: base64 decoding of the signature
  followed by the corresponding platform verification predicate (Node
  `verify` / WebCrypto `subtle.verify`); total, `false` on any mismatch.
* `isKeypair priv pub`: `pub` is the public half of the RSA keypair whose
  private half is `priv`.
* `verify_sign`: the platform's signature-correctness contract — verifying
  with the matching public key, the same data bytes, the same digest
  algorithm and the same padding succeeds.
* `generateKeyPair`: `generateKeyPairSync('rsa', {modulusLength: 2048, ...})`
  returning `(privatePem, publicPem)`, indexed by an entropy seed.
* `toIsoString`: `Date.prototype.toISOString` on an epoch-milliseconds value.
-/
structure JsRuntime where
  sha384hex : String → String
  sha384hex_length : ∀ s, (sha384hex s).length = 96
  sha384hex_lowerhex : ∀ s, (sha384hex s).data.all isLowerHexChar = true
  rsaSignB64 : SigHashAlg → RsaPadding → String → List Nat → String
  rsaVerifyB64 : SigHashAlg → RsaPadding → String → List Nat → String → Bool
  isKeypair : String → String → Bool
  verify_sign : ∀ alg pad priv pub data, isKeypair priv pub = true →
    rsaVerifyB64 alg pad pub data (rsaSignB64 alg pad priv data) = true
  generateKeyPair : Nat → String × String
  generate_isKeypair : ∀ seed,
    isKeypair (generateKeyPair seed).1 (generateKeyPair seed).2 = true
  toIsoString : Nat → String

/-- Error taxonomy of `CryptoService` (§7 of the spec): `invalidInput` models
the `Error('... must be a non-empty string')` throws, `uninitializedKey` the
`Error('Private key not initialized')` / `Error('Public key not initialized')`
throws; each carries the source's message text. -/
inductive CryptoError where
  | invalidInput (msg : String)
  | uninitializedKey (msg : String)
deriving DecidableEq

/-- The message text of the modelled throw. -/
def CryptoError.message : CryptoError → String
  | .invalidInput m => m
  | .uninitializedKey m => m

/-- In-memory state of `CryptoService`: the `privateKey` / `publicKey` fields
(PEM text; `none` models the pre-`onModuleInit` undefined state). -/
structure CryptoState where
  privateKey : Option String := none
  publicKey : Option String := none
deriving DecidableEq

/-- On-disk contents of the `keys/` directory (`private.pem`, `public.pem`). -/
structure KeysDir where
  dirExists : Bool := false
  privatePem : Option String := none
  publicPem : Option String := none
deriving DecidableEq

/-- `CryptoService.initializeKeys` (run from `onModuleInit`; the spec calls it
`ensureKeys`): create the keys directory if missing; if both PEM files exist,
load them into memory; otherwise generate a fresh RSA-2048 keypair
(`generateKeyPair`), write both files, and hold the pair in memory. -/
def ensureKeys (rt : JsRuntime) (seed : Nat) (fs : KeysDir) (_st : CryptoState) :
    KeysDir × CryptoState :=
  let fs := if fs.dirExists then fs else { fs with dirExists := true }
  match fs.privatePem, fs.publicPem with
  | some priv, some pub =>
      (fs, { privateKey := some priv, publicKey := some pub })
  | _, _ =>
      let pair := rt.generateKeyPair seed
      ({ dirExists := true, privatePem := some pair.1, publicPem := some pair.2 },
       { privateKey := some pair.1, publicKey := some pair.2 })

/-- `CryptoService.hashEmail`: reject an empty input, otherwise normalize
(lowercase + trim) and return the SHA-384 hex digest of the normalized email. -/
def hashEmail (rt : JsRuntime) (email : String) : Except CryptoError String :=
  if email = "" then
    .error (.invalidInput "Email must be a non-empty string")
  else
    .ok (rt.sha384hex (normalizeEmail email))

/-- `CryptoService.signHash`: reject an empty hash, require a loaded private
key, then sign the UTF-8 bytes of the hex-string hash with RSA-SHA256 and
PKCS#1 v1.5 padding, returning the base64-encoded signature. -/
def signHash (rt : JsRuntime) (cs : CryptoState) (hash : String) :
    Except CryptoError String :=
  if hash = "" then
    .error (.invalidInput "Hash must be a non-empty string")
  else
    match cs.privateKey with
    | none => .error (.uninitializedKey "Private key not initialized")
    | some priv => .ok (rt.rsaSignB64 .sha256 .pkcs1v15 priv (utf8Bytes hash))

/-- `CryptoService.getPublicKey`: the PEM text of the public key
(`publicKey.toString('utf8')`), or the uninitialized-key error if
key initialization has never completed. -/
def getPublicKey (cs : CryptoState) : Except CryptoError String :=
  match cs.publicKey with
  | none => .error (.uninitializedKey "Public key not initialized")
  | some pub => .ok pub

/-- Frontend `utils/crypto.ts` `verifySignature` (composed with
`importPublicKey`, which imports the PEM under
`{name: "RSASSA-PKCS1-v1_5", hash: "SHA-256"}`): verify the base64 signature
against the UTF-8 bytes of the hex-string hash under the same scheme. -/
def verifySignature (rt : JsRuntime) (pubPem : String) (hashHex sigB64 : String) :
    Bool :=
  rt.rsaVerifyB64 .sha256 .pkcs1v15 pubPem (utf8Bytes hashHex) sigB64

/-- Error taxonomy of `UsersService` (§7 of the spec): `conflict` models
`ConflictException`, `notFound` models `NotFoundException`, `generic` models a
rethrown plain `Error` (the catch blocks wrap any other failure into
`Error('User creation failed: ...')` / `Error('User update failed: ...')`). -/
inductive SvcError where
  | conflict (msg : String)
  | notFound (msg : String)
  | generic (msg : String)
deriving DecidableEq

/-- The `users` table as seen through the TypeORM repository: the persisted
rows plus the auto-increment counter backing `@PrimaryGeneratedColumn`. -/
structure StoreState where
  users : List UserRec := []
  nextId : Nat := 1
deriving DecidableEq

/-- `UpdateUserDto`: a partial-update payload; `none` models an absent
property (TypeORM's `update` skips absent columns and writes present ones). -/
structure UpdateDto where
  email : Option String := none
  role : Option UserRole := none
  status : Option UserStatus := none
deriving DecidableEq

/-- `UsersService.create(email, role = USER, status = ACTIVE)`: validate the
email format, reject (before persisting anything) when a record with the
case-sensitively identical stored `email` exists (`findOne({where: {email}})`
under SQLite's binary `=` collation), hash and sign, then save the new row.
`none` for `role` / `status` models an omitted argument, resolved by the JS
default parameters.  `now` is the clock value `@CreateDateColumn` stamps. -/
def create (rt : JsRuntime) (cs : CryptoState) (st : StoreState) (now : Nat)
    (email : String) (role : Option UserRole) (status : Option UserStatus) :
    Except SvcError (StoreState × UserRec) :=
  if isValidEmail email then
    match st.users.find? (fun u => u.email == email) with
    | some _ => .error (.conflict ("User with email " ++ email ++ " already exists"))
    | none =>
        match hashEmail rt email with
        | .error e => .error (.generic ("User creation failed: " ++ e.message))
        | .ok emailHash =>
            match signHash rt cs emailHash with
            | .error e => .error (.generic ("User creation failed: " ++ e.message))
            | .ok signature =>
                let user : UserRec :=
                  { id := st.nextId, email := email, role := role.getD .user,
                    status := status.getD .active, createdAt := now,
                    emailHash := emailHash, signature := signature }
                .ok ({ users := st.users ++ [user], nextId := st.nextId + 1 }, user)
  else
    .error (.generic "User creation failed: Invalid email format")

/-- `UsersService.findOne`: first row with the given id, or `NotFoundException`. -/
def findOne (st : StoreState) (id : Nat) : Except SvcError UserRec :=
  match st.users.find? (fun u => u.id == id) with
  | none => .error (.notFound ("User with ID " ++ toString id ++ " not found"))
  | some u => .ok u

/-- The guard `updateData.email && updateData.email !== user.email` of
`UsersService.update`: the payload email is present, truthy (nonempty — the
empty string is falsy in JS), and differs from the current value. -/
def emailChangeRequested (d : UpdateDto) (current : String) : Prop :=
  match d.email with
  | some e => e ≠ "" ∧ e ≠ current
  | none => False

instance (d : UpdateDto) (current : String) :
    Decidable (emailChangeRequested d current) := by
  unfold emailChangeRequested
  match d.email with
  | some _ => exact instDecidableAnd
  | none => exact instDecidableFalse

/-- Effect of `userRepository.update(id, fields)` on one row: every present
field overwrites the corresponding column, absent fields are untouched.
`newHash` / `newSig` are the `emailHash` / `signature` entries the
email-change branch spreads into the payload (`none` otherwise). -/
def applyUpdate (u : UserRec) (email : Option String) (role : Option UserRole)
    (status : Option UserStatus) (newHash newSig : Option String) : UserRec :=
  { u with
    email := email.getD u.email
    role := role.getD u.role
    status := status.getD u.status
    emailHash := newHash.getD u.emailHash
    signature := newSig.getD u.signature }

/-- The `normalize → hash → sign` sequence of the email-change branch of
`UsersService.update`, with its catch block wrapping crypto failures into
`Error('User update failed: ...')`. -/
def rehashForUpdate (rt : JsRuntime) (cs : CryptoState) (e : String) :
    Except SvcError (String × String) :=
  match hashEmail rt e with
  | .error err => .error (.generic ("User update failed: " ++ err.message))
  | .ok newHash =>
      match signHash rt cs newHash with
      | .error err => .error (.generic ("User update failed: " ++ err.message))
      | .ok newSig => .ok (newHash, newSig)

/-- The email-change section of `UsersService.update`: when the payload
requests an email change, validate the new email's format, reject a collision
with a different row's stored email (`ConflictException`), and produce the
recomputed `(emailHash, signature)` pair that the source spreads into the
payload; `none` when the email is absent or unchanged. -/
def resolveEmailChange (rt : JsRuntime) (cs : CryptoState) (st : StoreState)
    (id : Nat) (d : UpdateDto) (user : UserRec) :
    Except SvcError (Option (String × String)) :=
  if emailChangeRequested d user.email then
    let e := (d.email).getD ""
    if isValidEmail e then
      match st.users.find? (fun u => u.email == e) with
      | some other =>
          if other.id ≠ id then
            .error (.conflict ("User with email " ++ e ++ " already exists"))
          else
            match rehashForUpdate rt cs e with
            | .error err => .error err
            | .ok p => .ok (some p)
      | none =>
          match rehashForUpdate rt cs e with
          | .error err => .error err
          | .ok p => .ok (some p)
    else
      .error (.generic "User update failed: Invalid email format")
  else
    .ok none

/-- `UsersService.update(id, updateData)`: find the row (else
`NotFoundException`); resolve the email-change section; then
`userRepository.update(id, updateData)` writes the present fields (plus the
recomputed pair if any) and the updated row is returned. -/
def update (rt : JsRuntime) (cs : CryptoState) (st : StoreState) (id : Nat)
    (d : UpdateDto) : Except SvcError (StoreState × UserRec) :=
  match st.users.find? (fun u => u.id == id) with
  | none => .error (.notFound ("User with ID " ++ toString id ++ " not found"))
  | some user =>
      match resolveEmailChange rt cs st id d user with
      | .error err => .error err
      | .ok pair =>
          let user' := applyUpdate user d.email d.role d.status
            (pair.map (fun p => p.1)) (pair.map (fun p => p.2))
          .ok ({ st with
                  users := st.users.map (fun u => if u.id == id then user' else u) },
               user')

/-- `UsersService.remove`: verify existence (else `NotFoundException`), then
delete the row. -/
def remove (st : StoreState) (id : Nat) : Except SvcError StoreState :=
  match st.users.find? (fun u => u.id == id) with
  | none => .error (.notFound ("User with ID " ++ toString id ++ " not found"))
  | some _ => .ok { st with users := st.users.filter (fun u => !(u.id == id)) }

/-- Protobuf `User` message shape (`ProtobufUser` in `protobuf.service.ts`,
`ProtoUser` in the frontend): role/status as string labels, `createdAt` as an
ISO-8601 string. -/
structure ProtoUser where
  id : Nat
  email : String
  role : String
  status : String
  createdAt : String
  emailHash : String
  signature : String
deriving DecidableEq

/-- Protobuf `UsersExport` message shape: the users plus the two derived
metadata fields. -/
structure ProtoUsersExport where
  users : List ProtoUser
  exportedAt : String
  totalCount : Nat
deriving DecidableEq

/-- Abstract protobufjs codec for the `userdashboard.UsersExport` schema over
a wire type `W` (bytes in the source).  `decode_encode` is the library's
round-trip contract for schema-conformant messages. -/
structure ProtoCodec (W : Type) where
  encode : ProtoUsersExport → W
  decode : W → Except String ProtoUsersExport
  decode_encode : ∀ m, decode (encode m) = .ok m

/-- `ProtobufService.convertUserToProtobuf`: 1:1 field mapping of the entity
to the wire shape (`role` / `status` keep their string enum values,
`createdAt` is rendered by `toISOString`). -/
def convertUserToProtobuf (rt : JsRuntime) (u : UserRec) : ProtoUser :=
  { id := u.id, email := u.email, role := u.role.label, status := u.status.label,
    createdAt := rt.toIsoString u.createdAt, emailHash := u.emailHash,
    signature := u.signature }

/-- `ProtobufService.encodeUsers`: map every entity through
`convertUserToProtobuf`, stamp `exportedAt` with the current time and
`totalCount` with the input length, then encode the `UsersExport` message. -/
def encodeUsers {W : Type} (rt : JsRuntime) (codec : ProtoCodec W)
    (users : List UserRec) (now : Nat) : W :=
  codec.encode
    { users := users.map (convertUserToProtobuf rt),
      exportedAt := rt.toIsoString now,
      totalCount := users.length }

/-- `ProtobufService.decodeUsers` and the frontend `decodeUsersExport`:
decode the binary message (`Error('Protobuf decoding failed')` on failure). -/
def decodeUsers {W : Type} (codec : ProtoCodec W) (w : W) :
    Except String ProtoUsersExport :=
  match codec.decode w with
  | .ok m => .ok m
  | .error _ => .error "Protobuf decoding failed"

/-- The `usersQuery` display set of `useUsers.ts`: annotate every listed
record with `isValid := verifySignature(pub, emailHash, signature)`, then keep
only the valid ones. -/
def usersQueryResult (rt : JsRuntime) (pubPem : String) (users : List UserRec) :
    List UserRec :=
  ((users.map (fun u => (u, verifySignature rt pubPem u.emailHash u.signature))).filter
      (fun p => p.2)).map (fun p => p.1)

/-- The `exportQuery` display set of `useUsers.ts`: decode the binary export;
no verification or filtering is applied on this path (`ExportTable` renders
`exportQuery.data.users` as is). -/
def exportQueryResult {W : Type} (codec : ProtoCodec W) (buf : W) :
    Except String ProtoUsersExport :=
  decodeUsers codec buf

/-! ### Concrete instantiation used to evaluate the development on inputs

A miniature platform instance satisfying every contract of `JsRuntime` /
`ProtoCodec`: the digest is a constant 96-character hex string, a "signature"
is the signing key itself, verification compares the signature with the public
key, and the toy keypair relation identifies the two halves.  It exists purely
so that the theorems below can be evaluated on closed inputs. -/

/-- A 96-character lowercase hex string, the toy SHA-384 digest. -/
def zeros96 : String := String.mk (List.replicate 96 '0')

/-- Toy platform instance (see section header). -/
def toyRt : JsRuntime where
  sha384hex := fun _ => zeros96
  sha384hex_length := fun _ => (by decide : zeros96.length = 96)
  sha384hex_lowerhex := fun _ => (by decide : zeros96.data.all isLowerHexChar = true)
  rsaSignB64 := fun _ _ priv _ => priv
  rsaVerifyB64 := fun _ _ pub _ sig => sig == pub
  isKeypair := fun priv pub => priv == pub
  verify_sign := fun _ _ _ _ _ h => h
  generateKeyPair := fun _ => ("key", "key")
  generate_isKeypair := fun _ => (by decide : ("key" == "key") = true)
  toIsoString := fun n => toString n

/-- Toy protobuf codec whose wire type is the message itself. -/
def toyCodec : ProtoCodec ProtoUsersExport where
  encode := fun m => m
  decode := fun m => .ok m
  decode_encode := fun _ => rfl

/-- Crypto state after key initialization under the toy instance. -/
def keyedCrypto : CryptoState := { privateKey := some "key", publicKey := some "key" }

/-- Demo record with a valid toy signature. -/
def demoUser1 : UserRec :=
  { id := 1, email := "alice@example.com", role := .admin, status := .active,
    createdAt := 0, emailHash := zeros96, signature := "key" }

/-- Second demo record with a valid toy signature. -/
def demoUser2 : UserRec :=
  { id := 2, email := "bob@example.com", role := .user, status := .active,
    createdAt := 0, emailHash := zeros96, signature := "key" }

/-- Demo record whose `signature` column was corrupted in storage. -/
def corruptUser : UserRec :=
  { id := 3, email := "carol@example.com", role := .user, status := .inactive,
    createdAt := 0, emailHash := zeros96, signature := "corrupted" }

/-- A 3-record store, one record with a corrupted signature. -/
def demoUsers : List UserRec := [demoUser1, demoUser2, corruptUser]

/-! ### Helper lemmas -/

/-- The SHA-384 hex digest is never the empty string (it has 96 characters). -/
theorem sha384hex_ne_empty (rt : JsRuntime) (s : String) : rt.sha384hex s ≠ "" := by
  intro h
  have hl := rt.sha384hex_length s
  rw [h] at hl
  exact absurd hl (by decide)

/-- A string passing the email regex is nonempty. -/
theorem isValidEmail_ne_empty {e : String} (h : isValidEmail e = true) : e ≠ "" := by
  intro he
  rw [he] at h
  exact absurd h (by decide)

/-- `hashEmail` on a nonempty email returns the digest of the normalization. -/
theorem hashEmail_ok (rt : JsRuntime) {email : String} (h : email ≠ "") :
    hashEmail rt email = .ok (rt.sha384hex (normalizeEmail email)) := by
  simp [hashEmail, h]

/-- Successful `hashEmail` results are digests of normalized emails. -/
theorem hashEmail_ok_inv (rt : JsRuntime) {email d : String}
    (h : hashEmail rt email = .ok d) : d = rt.sha384hex (normalizeEmail email) := by
  unfold hashEmail at h
  split at h
  · exact absurd h (by simp)
  · exact (Except.ok.injEq _ _ ▸ h).symm

/-- `signHash` with a loaded private key and nonempty hash signs the UTF-8
bytes of the hash with RSA-SHA256 / PKCS#1 v1.5. -/
theorem signHash_ok (rt : JsRuntime) {cs : CryptoState} {priv : String}
    {hash : String} (h : hash ≠ "") (hk : cs.privateKey = some priv) :
    signHash rt cs hash = .ok (rt.rsaSignB64 .sha256 .pkcs1v15 priv (utf8Bytes hash)) := by
  simp [signHash, h, hk]

/-- The row `UsersService.create` persists on success, given the loaded private
key `priv`: fresh id, the email exactly as supplied, defaults resolved, and the
hash/signature pair computed by `hashEmail` / `signHash`. -/
def mkCreatedUser (rt : JsRuntime) (priv : String) (st : StoreState) (now : Nat)
    (email : String) (role : Option UserRole) (status : Option UserStatus) : UserRec :=
  { id := st.nextId, email := email, role := role.getD .user,
    status := status.getD .active, createdAt := now,
    emailHash := rt.sha384hex (normalizeEmail email),
    signature := rt.rsaSignB64 .sha256 .pkcs1v15 priv
      (utf8Bytes (rt.sha384hex (normalizeEmail email))) }

/-- `create` on a valid, conflict-free email with a loaded private key
persists exactly `mkCreatedUser` and returns it. -/
theorem create_ok (rt : JsRuntime) {cs : CryptoState} (st : StoreState) (now : Nat)
    {email : String} (role : Option UserRole) (status : Option UserStatus)
    {priv : String}
    (hval : isValidEmail email = true)
    (hfree : st.users.find? (fun u => u.email == email) = none)
    (hk : cs.privateKey = some priv) :
    create rt cs st now email role status =
      .ok ({ users := st.users ++ [mkCreatedUser rt priv st now email role status],
             nextId := st.nextId + 1 },
           mkCreatedUser rt priv st now email role status) := by
  have hne := isValidEmail_ne_empty hval
  simp [create, hval, hfree, hashEmail_ok rt hne,
        signHash_ok rt (sha384hex_ne_empty rt _) hk, mkCreatedUser]

/-- `create` on an email already stored verbatim fails with the conflict
error, before anything is persisted. -/
theorem create_conflict (rt : JsRuntime) (cs : CryptoState) (st : StoreState)
    (now : Nat) {email : String} (role : Option UserRole) (status : Option UserStatus)
    {u0 : UserRec}
    (hval : isValidEmail email = true)
    (hdup : st.users.find? (fun u => u.email == email) = some u0) :
    create rt cs st now email role status =
      .error (.conflict ("User with email " ++ email ++ " already exists")) := by
  simp [create, hval, hdup]

/-- `create` on an email failing the regex fails with the wrapped format
error, before anything is persisted. -/
theorem create_invalid (rt : JsRuntime) (cs : CryptoState) (st : StoreState)
    (now : Nat) {email : String} (role : Option UserRole) (status : Option UserStatus)
    (h : isValidEmail email = false) :
    create rt cs st now email role status =
      .error (.generic "User creation failed: Invalid email format") := by
  simp [create, h]

/-- Inversion for successful `create`: the returned row carries the supplied
email, its hash is the digest of the normalized email, its signature was
produced by `signHash` on that hash, and the store grew by exactly that row. -/
theorem create_ok_inv {rt : JsRuntime} {cs : CryptoState} {st : StoreState}
    {now : Nat} {email : String} {role : Option UserRole} {status : Option UserStatus}
    {st' : StoreState} {u : UserRec}
    (hok : create rt cs st now email role status = .ok (st', u)) :
    u.email = email ∧ u.emailHash = rt.sha384hex (normalizeEmail email) ∧
      st'.users = st.users ++ [u] := by
  unfold create at hok
  split at hok
  · split at hok
    · exact absurd hok (by simp)
    · split at hok
      · exact absurd hok (by simp)
      · rename_i heh
        split at hok
        · exact absurd hok (by simp)
        · rw [Except.ok.injEq, Prod.mk.injEq] at hok
          obtain ⟨hst, hu⟩ := hok
          subst hst hu
          exact ⟨rfl, (hashEmail_ok_inv rt heh), rfl⟩
  · exact absurd hok (by simp)

/-- `update` on a missing id fails with the not-found error. -/
theorem update_notFound (rt : JsRuntime) (cs : CryptoState) {st : StoreState}
    {id : Nat} (d : UpdateDto)
    (h : st.users.find? (fun u => u.id == id) = none) :
    update rt cs st id d =
      .error (.notFound ("User with ID " ++ toString id ++ " not found")) := by
  simp [update, h]

/-- `update` without an email change writes the present fields and leaves
`emailHash` / `signature` untouched. -/
theorem update_noChange (rt : JsRuntime) (cs : CryptoState) {st : StoreState}
    {id : Nat} {d : UpdateDto} {user : UserRec}
    (hfind : st.users.find? (fun u => u.id == id) = some user)
    (hnc : ¬ emailChangeRequested d user.email) :
    update rt cs st id d =
      .ok ({ st with users := st.users.map (fun u =>
               if u.id == id then applyUpdate user d.email d.role d.status none none
               else u) },
           applyUpdate user d.email d.role d.status none none) := by
  simp [update, hfind, resolveEmailChange, hnc]

/-- `update` with a changed, valid, conflict-free email recomputes the
hash/signature pair from the new email and writes all three together. -/
theorem update_change_ok (rt : JsRuntime) {cs : CryptoState} {st : StoreState}
    {id : Nat} {d : UpdateDto} {user : UserRec} {e priv : String}
    (hfind : st.users.find? (fun u => u.id == id) = some user)
    (hde : d.email = some e) (hne : e ≠ "") (hdiff : e ≠ user.email)
    (hval : isValidEmail e = true)
    (hfree : st.users.find? (fun u => u.email == e) = none)
    (hk : cs.privateKey = some priv) :
    update rt cs st id d =
      .ok ({ st with users := st.users.map (fun u =>
               if u.id == id then
                 applyUpdate user d.email d.role d.status
                   (some (rt.sha384hex (normalizeEmail e)))
                   (some (rt.rsaSignB64 .sha256 .pkcs1v15 priv
                     (utf8Bytes (rt.sha384hex (normalizeEmail e)))))
               else u) },
           applyUpdate user d.email d.role d.status
             (some (rt.sha384hex (normalizeEmail e)))
             (some (rt.rsaSignB64 .sha256 .pkcs1v15 priv
               (utf8Bytes (rt.sha384hex (normalizeEmail e)))))) := by
  simp [update, hfind, resolveEmailChange, emailChangeRequested, hde, hne, hdiff,
        hval, hfree, rehashForUpdate, hashEmail_ok rt hne,
        signHash_ok rt (sha384hex_ne_empty rt _) hk]

/-- `update` requesting a change to an email that fails the regex fails with
the wrapped format error, before anything is written. -/
theorem update_change_invalid (rt : JsRuntime) (cs : CryptoState) {st : StoreState}
    {id : Nat} {d : UpdateDto} {user : UserRec} {e : String}
    (hfind : st.users.find? (fun u => u.id == id) = some user)
    (hde : d.email = some e) (hne : e ≠ "") (hdiff : e ≠ user.email)
    (hbad : isValidEmail e = false) :
    update rt cs st id d =
      .error (.generic "User update failed: Invalid email format") := by
  simp [update, hfind, resolveEmailChange, emailChangeRequested, hde, hne, hdiff, hbad]

/-- Successful `rehashForUpdate` results: the hash component is the digest of
the normalized new email and the signature component signs that hash. -/
theorem rehashForUpdate_ok_inv {rt : JsRuntime} {cs : CryptoState} {e : String}
    {p : String × String} (h : rehashForUpdate rt cs e = .ok p) :
    p.1 = rt.sha384hex (normalizeEmail e) := by
  unfold rehashForUpdate at h
  split at h
  · exact absurd h (by simp)
  · rename_i d heh
    split at h
    · exact absurd h (by simp)
    · rw [Except.ok.injEq] at h
      rw [← h]
      exact hashEmail_ok_inv rt heh

/-- Inversion for successful `update`: some row matched the id, the store is
that row replaced by the returned one, and the returned row either carries a
freshly recomputed hash of its own (new) email, or the payload email was the
falsy empty string, or email, hash and signature are all untouched. -/
theorem update_ok_inv {rt : JsRuntime} {cs : CryptoState} {st : StoreState}
    {id : Nat} {d : UpdateDto} {st' : StoreState} {u' : UserRec}
    (hok : update rt cs st id d = .ok (st', u')) :
    ∃ user, st.users.find? (fun u => u.id == id) = some user ∧
      st'.users = st.users.map (fun u => if u.id == id then u' else u) ∧
      (u'.emailHash = rt.sha384hex (normalizeEmail u'.email) ∨
       d.email = some "" ∨
       (u'.email = user.email ∧ u'.emailHash = user.emailHash ∧
        u'.signature = user.signature)) := by
  unfold update at hok
  split at hok
  · exact absurd hok (by simp)
  · rename_i user hfind
    split at hok
    · exact absurd hok (by simp)
    · rename_i pair hres
      rw [Except.ok.injEq, Prod.mk.injEq] at hok
      obtain ⟨hst, hu⟩ := hok
      subst hst hu
      refine ⟨user, hfind, rfl, ?_⟩
      unfold resolveEmailChange at hres
      split at hres
      · rename_i hch
        obtain ⟨e0, hde⟩ : ∃ e0, d.email = some e0 := by
          unfold emailChangeRequested at hch
          cases hde : d.email with
          | none => rw [hde] at hch; exact absurd hch not_false
          | some e0 => exact ⟨e0, rfl⟩
        simp only [hde, Option.getD_some] at hres
        split at hres
        · split at hres
          · split at hres
            · exact absurd hres (by simp)
            · split at hres
              · exact absurd hres (by simp)
              · rename_i p hre
                rw [Except.ok.injEq] at hres
                subst hres
                left
                have h1 := rehashForUpdate_ok_inv hre
                simp [applyUpdate, hde, h1]
          · split at hres
            · exact absurd hres (by simp)
            · rename_i p hre
              rw [Except.ok.injEq] at hres
              subst hres
              left
              have h1 := rehashForUpdate_ok_inv hre
              simp [applyUpdate, hde, h1]
        · exact absurd hres (by simp)
      · rename_i hnc
        rw [Except.ok.injEq] at hres
        subst hres
        cases hde : d.email with
        | none =>
            right; right
            simp [applyUpdate, hde]
        | some e =>
            unfold emailChangeRequested at hnc
            rw [hde] at hnc
            by_cases he : e = ""
            · right; left; rw [he]
            · right; right
              have hee : e = user.email := by
                by_contra hne2
                exact hnc ⟨he, hne2⟩
              simp [applyUpdate, hde, hee]

/-- `remove` on a missing id fails with the not-found error. -/
theorem remove_notFound {st : StoreState} {id : Nat}
    (h : st.users.find? (fun u => u.id == id) = none) :
    remove st id =
      .error (.notFound ("User with ID " ++ toString id ++ " not found")) := by
  simp [remove, h]

/-- Every row surviving a successful `remove` was already in the store. -/
theorem remove_ok_inv {st : StoreState} {id : Nat} {st' : StoreState}
    (hok : remove st id = .ok st') : ∀ v ∈ st'.users, v ∈ st.users := by
  unfold remove at hok
  split at hok
  · exact absurd hok (by simp)
  · rw [Except.ok.injEq] at hok
    subst hok
    intro v hv
    exact List.mem_of_mem_filter hv

/-- The §3 data-model invariant: every persisted record's `emailHash` is the
SHA-384 hex digest of its normalized (lowercased, trimmed) `email`. -/
def hashInv (rt : JsRuntime) (st : StoreState) : Prop :=
  ∀ u ∈ st.users, u.emailHash = rt.sha384hex (normalizeEmail u.email)

/-- A 3-record demo store satisfying the hash invariant under `toyRt`. -/
def demoStore : StoreState := { users := demoUsers, nextId := 4 }

/-! ### Claims -/

/-- C1: for every persisted user record, after create and after every update,
the stored `emailHash` field equals the SHA-384 hex digest of the normalized
(lowercased, trimmed) email; `create` computes it via `hashEmail(email)` and
`update` recomputes it exactly when the email changes, so the invariant
`hashInv` is preserved by every operation (create, update, remove).
The hypothesis `d.email ≠ some ""` reflects the `@IsEmail` DTO validation of
the update payload at the API boundary (an empty string is not a valid email),
which is the only payload shape the service-level truthiness guard
`updateData.email && ...` would misclassify. -/
theorem C1_emailHash_invariant_preserved
    (rt : JsRuntime) (cs : CryptoState) (st : StoreState) (now : Nat)
    (email : String) (role : Option UserRole) (status : Option UserStatus)
    (id : Nat) (d : UpdateDto) (st₁ st₂ st₃ : StoreState) (u₁ u₂ : UserRec)
    (hinv : hashInv rt st) (hemail : d.email ≠ some "") :
    (create rt cs st now email role status = .ok (st₁, u₁) → hashInv rt st₁) ∧
    (update rt cs st id d = .ok (st₂, u₂) → hashInv rt st₂) ∧
    (remove st id = .ok st₃ → hashInv rt st₃) := by
  refine ⟨?_, ?_, ?_⟩
  · intro hok
    obtain ⟨he, hh, hs⟩ := create_ok_inv hok
    intro v hv
    rw [hs] at hv
    rcases List.mem_append.1 hv with h | h
    · exact hinv v h
    · rw [List.mem_singleton] at h
      subst h
      rw [hh, he]
  · intro hok
    obtain ⟨user, hfind, hmap, hdisj⟩ := update_ok_inv hok
    intro v hv
    rw [hmap] at hv
    obtain ⟨w, hw, hveq⟩ := List.mem_map.1 hv
    by_cases hid : (w.id == id) = true
    · rw [if_pos hid] at hveq
      subst hveq
      rcases hdisj with h | h | h
      · exact h
      · exact absurd h hemail
      · obtain ⟨he, hh, _⟩ := h
        rw [hh, he]
        exact hinv user (List.mem_of_find?_eq_some hfind)
    · rw [if_neg hid] at hveq
      subst hveq
      exact hinv w hw
  · intro hok v hv
    exact hinv v (remove_ok_inv hok v hv)

/-- Witness for C1 at the toy instance: the demo store satisfies the
invariant, the payload email is not the empty string, and removing record 3
preserves the invariant. -/
theorem C1_emailHash_invariant_preserved_witness :
    hashInv toyRt demoStore ∧ ((none : Option String) ≠ some "") ∧
    (remove demoStore 3 = .ok { users := [demoUser1, demoUser2], nextId := 4 } →
      hashInv toyRt { users := [demoUser1, demoUser2], nextId := 4 }) := by
  have hinv : hashInv toyRt demoStore := by unfold hashInv; decide
  exact ⟨hinv, by decide,
    (C1_emailHash_invariant_preserved toyRt keyedCrypto demoStore 0 "x@y.z" none none
      3 {} demoStore demoStore { users := [demoUser1, demoUser2], nextId := 4 }
      demoUser1 demoUser1 hinv (by decide)).2.2⟩

/-- C2 counterexample: in a 3-record export with exactly one corrupted
signature, the decoded protobuf export surfaced to the user (`exportQuery`,
rendered by `ExportTable`) still contains all 3 records, including the
corrupted one whose signature fails verification — so it is not the case that
every user-surfaced collection excludes records failing verification. -/
theorem C2_export_not_filtered_counterexample :
    verifySignature toyRt "key" corruptUser.emailHash corruptUser.signature = false ∧
    exportQueryResult toyCodec (encodeUsers toyRt toyCodec demoUsers 0) =
      .ok { users := demoUsers.map (convertUserToProtobuf toyRt),
            exportedAt := "0", totalCount := 3 } ∧
    convertUserToProtobuf toyRt corruptUser ∈ demoUsers.map (convertUserToProtobuf toyRt) ∧
    (demoUsers.map (convertUserToProtobuf toyRt)).length = 3 := by
  exact ⟨by decide, rfl, by decide, by decide⟩

/-- C2 amended: signature filtering applies to the listed records only — a
record appears in the `usersQuery` display set exactly when it is stored and
its signature verifies, and for the 3-record demo store with one corrupted
signature exactly 2 records are listed, silently and without error; the
decoded protobuf export (`exportQuery`) is surfaced without any verification
or filtering, reproducing every encoded record. -/
theorem C2_listed_records_filtered (rt : JsRuntime) (pubPem : String)
    (users : List UserRec) (u : UserRec) :
    (u ∈ usersQueryResult rt pubPem users ↔
      u ∈ users ∧ verifySignature rt pubPem u.emailHash u.signature = true) ∧
    (∀ (W : Type) (codec : ProtoCodec W) (now : Nat),
      exportQueryResult codec (encodeUsers rt codec users now) =
        .ok { users := users.map (convertUserToProtobuf rt),
              exportedAt := rt.toIsoString now, totalCount := users.length }) ∧
    (usersQueryResult toyRt "key" demoUsers).length = 2 := by
  refine ⟨?_, ?_, by decide⟩
  · unfold usersQueryResult
    constructor
    · intro hu
      obtain ⟨p, hp, hpu⟩ := List.mem_map.1 hu
      obtain ⟨hpmem, hpv⟩ := List.mem_filter.1 hp
      obtain ⟨w, hw, hwp⟩ := List.mem_map.1 hpmem
      subst hwp
      subst hpu
      exact ⟨hw, hpv⟩
    · intro ⟨hu, hv⟩
      refine List.mem_map.2 ⟨(u, verifySignature rt pubPem u.emailHash u.signature),
        List.mem_filter.2 ⟨List.mem_map.2 ⟨u, hu, rfl⟩, hv⟩, rfl⟩
  · intro W codec now
    simp [exportQueryResult, decodeUsers, encodeUsers, codec.decode_encode]

/-- C3: updates with the email absent or unchanged leave `emailHash` and
`signature` byte-for-byte identical; updates to a new, valid, non-colliding
email overwrite `email`, `emailHash` and `signature` together, the new hash
is the digest of the normalized new email, the new signature signs that hash,
and the new pair verifies against the public key. -/
theorem C3_update_frame_and_resign
    (rt : JsRuntime) (cs : CryptoState) (st : StoreState) (id : Nat) (d : UpdateDto)
    (u0 : UserRec) (st' st'' : StoreState) (u' u'' : UserRec) (e priv pub : String)
    (hfind : st.users.find? (fun u => u.id == id) = some u0) :
    ((d.email = none ∨ d.email = some u0.email) →
      update rt cs st id d = .ok (st', u') →
      u'.emailHash = u0.emailHash ∧ u'.signature = u0.signature) ∧
    (d.email = some e → e ≠ u0.email → isValidEmail e = true →
      st.users.find? (fun u => u.email == e) = none →
      cs.privateKey = some priv → rt.isKeypair priv pub = true →
      update rt cs st id d = .ok (st'', u'') →
      u''.email = e ∧
      u''.emailHash = rt.sha384hex (normalizeEmail e) ∧
      u''.signature = rt.rsaSignB64 .sha256 .pkcs1v15 priv
        (utf8Bytes (rt.sha384hex (normalizeEmail e))) ∧
      verifySignature rt pub u''.emailHash u''.signature = true) := by
  constructor
  · intro hno hok
    have hnc : ¬ emailChangeRequested d u0.email := by
      unfold emailChangeRequested
      rcases hno with h | h <;> rw [h] <;> simp
    rw [update_noChange rt cs hfind hnc] at hok
    rw [Except.ok.injEq, Prod.mk.injEq] at hok
    obtain ⟨-, hu⟩ := hok
    rw [← hu]
    rcases hno with h | h <;> simp [applyUpdate, h]
  · intro hde hdiff hval hfree hk hkp hok
    have hne : e ≠ "" := isValidEmail_ne_empty hval
    rw [update_change_ok rt hfind hde hne hdiff hval hfree hk] at hok
    rw [Except.ok.injEq, Prod.mk.injEq] at hok
    obtain ⟨-, hu⟩ := hok
    rw [← hu]
    refine ⟨by simp [applyUpdate, hde], by simp [applyUpdate], by simp [applyUpdate], ?_⟩
    simp only [applyUpdate, Option.getD_some]
    exact rt.verify_sign _ _ _ _ _ hkp

/-- The record produced by the witness update for C3. -/
def demoUpdatedUser : UserRec :=
  { id := 2, email := "bobby@example.com", role := .user, status := .active,
    createdAt := 0, emailHash := zeros96, signature := "key" }

/-- Witness for C3 at the toy instance: renaming record 2 of the demo store
to a fresh valid email recomputes the pair and the result verifies. -/
theorem C3_update_frame_and_resign_witness :
    demoStore.users.find? (fun u => u.id == 2) = some demoUser2 ∧
    demoUpdatedUser.email = "bobby@example.com" ∧
    demoUpdatedUser.emailHash = toyRt.sha384hex (normalizeEmail "bobby@example.com") ∧
    verifySignature toyRt "key" demoUpdatedUser.emailHash demoUpdatedUser.signature = true := by
  have h := (C3_update_frame_and_resign toyRt keyedCrypto demoStore 2
      { email := some "bobby@example.com" } demoUser2 demoStore
      { users := [demoUser1, demoUpdatedUser, corruptUser], nextId := 4 }
      demoUser1 demoUpdatedUser "bobby@example.com" "key" "key" (by decide)).2
      rfl (by decide) (by decide) (by decide) rfl (by decide) rfl
  exact ⟨by decide, h.1, h.2.1, h.2.2.2⟩

/-- A string accepted by the email regex contains no whitespace character:
both `[^\s@]` classes exclude whitespace and the separators `'@'` / `'.'` are
not whitespace, and the regex is anchored over the whole string. -/
theorem isValidEmail_no_space {s : String} (h : isValidEmail s = true) :
    ∀ c ∈ s.data, isJsSpace c = false := by
  unfold isValidEmail at h
  split at h
  · rename_i localPart domain heq
    simp only [Bool.and_eq_true] at h
    obtain ⟨⟨⟨-, hl⟩, hd⟩, -⟩ := h
    have hs : localPart ++ '@' :: domain = s.data := by
      have hi : List.intercalate ['@'] (s.data.splitOn '@') = s.data :=
        List.intercalate_splitOn s.data '@'
      rw [heq] at hi
      simpa [List.intercalate] using hi
    intro c hc
    rw [← hs] at hc
    have atom_no_space : ∀ x : Char, isEmailAtomChar x = true → isJsSpace x = false := by
      intro x hx
      unfold isEmailAtomChar at hx
      rw [Bool.and_eq_true] at hx
      simpa using hx.1
    rcases List.mem_append.1 hc with hcl | hcd
    · exact atom_no_space c (List.all_eq_true.1 hl c hcl)
    · rcases List.mem_cons.1 hcd with rfl | hcd'
      · decide
      · exact atom_no_space c (List.all_eq_true.1 hd c hcd')
  · exact absurd h (by simp)

/-- An email containing any whitespace character — in particular one with
surrounding whitespace — fails the email regex. -/
theorem isValidEmail_false_of_space {s : String} {c : Char} (hc : c ∈ s.data)
    (hsp : isJsSpace c = true) : isValidEmail s = false := by
  cases hv : isValidEmail s
  · rfl
  · rw [isValidEmail_no_space hv c hc] at hsp
    exact absurd hsp (by decide)

/-- C4 counterexample: `" bob@example.com "` differs from every stored email
of the demo store (only by surrounding whitespace from the stored
`"bob@example.com"`, so it hashes identically), yet `create` rejects it —
with the format error raised by the `isValidEmail` check that runs before the
uniqueness check — refuting the claim that such a create is not rejected. -/
theorem C4_whitespace_variant_rejected_counterexample :
    (∀ u ∈ demoStore.users, u.email ≠ " bob@example.com ") ∧
    normalizeEmail " bob@example.com " = normalizeEmail demoUser2.email ∧
    hashEmail toyRt " bob@example.com " = hashEmail toyRt demoUser2.email ∧
    isValidEmail " bob@example.com " = false ∧
    create toyRt keyedCrypto demoStore 0 " bob@example.com " none none =
      .error (.generic "User creation failed: Invalid email format") := by
  exact ⟨by decide, by decide, rfl, by decide, rfl⟩

/-- C4 amended: a create whose email is case-sensitively equal to an existing
record's stored email fails with the conflict error and persists nothing
(errors are raised before `save`); a create whose email differs from every
stored email only by case is not rejected, and its record's hash coincides
with the normalize-equal existing record's hash; but a variant containing
whitespace (in particular one differing only by surrounding whitespace) is
rejected by the format validation that precedes the uniqueness check, with
the wrapped `Invalid email format` error and nothing persisted.  `hval`
reflects that stored emails passed the format validation, so a colliding
create payload is itself format-valid; `hval'` holds for case variants since
the regex classes are case-insensitive sets. -/
theorem C4_uniqueness_case_only
    (rt : JsRuntime) (cs : CryptoState) (st : StoreState) (now : Nat)
    (email email' email'' : String) (role : Option UserRole) (status : Option UserStatus)
    (u0 u1 : UserRec) (priv : String) (c : Char)
    (hval : isValidEmail email = true)
    (hdup : st.users.find? (fun u => u.email == email) = some u0)
    (hval' : isValidEmail email' = true)
    (hfree : st.users.find? (fun u => u.email == email') = none)
    (hk : cs.privateKey = some priv)
    (_hmem : u1 ∈ st.users)
    (hnorm : normalizeEmail u1.email = normalizeEmail email')
    (hinv1 : u1.emailHash = rt.sha384hex (normalizeEmail u1.email))
    (hcmem : c ∈ email''.data) (hcsp : isJsSpace c = true) :
    create rt cs st now email role status =
      .error (.conflict ("User with email " ++ email ++ " already exists")) ∧
    create rt cs st now email' role status =
      .ok ({ users := st.users ++ [mkCreatedUser rt priv st now email' role status],
             nextId := st.nextId + 1 },
           mkCreatedUser rt priv st now email' role status) ∧
    (mkCreatedUser rt priv st now email' role status).emailHash = u1.emailHash ∧
    create rt cs st now email'' role status =
      .error (.generic "User creation failed: Invalid email format") := by
  refine ⟨create_conflict rt cs st now role status hval hdup,
          create_ok rt st now role status hval' hfree hk, ?_,
          create_invalid rt cs st now role status
            (isValidEmail_false_of_space hcmem hcsp)⟩
  simp [mkCreatedUser, hinv1, hnorm]

/-- Witness for amended C4 at the toy instance: re-creating
`"bob@example.com"` verbatim conflicts, `"Alice@Example.com"` (case-variant of
the stored `"alice@example.com"`) is accepted with the identical hash, and
`" bob@example.com "` (whitespace-variant of the stored `"bob@example.com"`)
is rejected by the format validation. -/
theorem C4_uniqueness_case_only_witness :
    isValidEmail "bob@example.com" = true ∧
    demoStore.users.find? (fun u => u.email == "bob@example.com") = some demoUser2 ∧
    isValidEmail "Alice@Example.com" = true ∧
    demoStore.users.find? (fun u => u.email == "Alice@Example.com") = none ∧
    normalizeEmail demoUser1.email = normalizeEmail "Alice@Example.com" ∧
    (' ' ∈ (" bob@example.com " : String).data) ∧
    create toyRt keyedCrypto demoStore 0 "bob@example.com" none none =
      .error (.conflict "User with email bob@example.com already exists") ∧
    (mkCreatedUser toyRt "key" demoStore 0 "Alice@Example.com" none none).emailHash =
      demoUser1.emailHash ∧
    create toyRt keyedCrypto demoStore 0 " bob@example.com " none none =
      .error (.generic "User creation failed: Invalid email format") := by
  have h := C4_uniqueness_case_only toyRt keyedCrypto demoStore 0
    "bob@example.com" "Alice@Example.com" " bob@example.com " none none
    demoUser2 demoUser1 "key" ' '
    (by decide) (by decide) (by decide) (by decide) rfl (by decide) (by decide)
    (by decide) (by decide) (by decide)
  exact ⟨by decide, by decide, by decide, by decide, by decide, by decide,
         h.1, h.2.2.1, h.2.2.2⟩

/-- C5: decoding an encoded export yields, for every input list of records,
exactly the records' exported fields — id, email, role and status as their
string labels, `createdAt` as its ISO-8601 rendering, `emailHash`,
`signature` — with `totalCount` equal to the input length and `exportedAt`
stamped from the encode-time clock (the only two derived fields). -/
theorem C5_export_roundtrip {W : Type} (codec : ProtoCodec W) (rt : JsRuntime)
    (users : List UserRec) (now : Nat) :
    decodeUsers codec (encodeUsers rt codec users now) =
      .ok { users := users.map (fun u =>
              { id := u.id, email := u.email, role := u.role.label,
                status := u.status.label, createdAt := rt.toIsoString u.createdAt,
                emailHash := u.emailHash, signature := u.signature }),
            exportedAt := rt.toIsoString now,
            totalCount := users.length } := by
  simp [decodeUsers, encodeUsers, codec.decode_encode, convertUserToProtobuf]

/-- C6: for every nonempty hash string, once the private key is loaded,
`signHash` signs the UTF-8 bytes of the hex-string hash with SHA-256 /
PKCS#1 v1.5, the client-side `verifySignature` re-derives the platform
predicate over the same bytes with the same scheme, and verification of the
produced signature under the matching public key returns `true`. -/
theorem C6_verify_of_sign (rt : JsRuntime) (cs : CryptoState)
    (h priv pub sig : String)
    (hne : h ≠ "") (hk : cs.privateKey = some priv)
    (hkp : rt.isKeypair priv pub = true)
    (hsig : signHash rt cs h = .ok sig) :
    sig = rt.rsaSignB64 .sha256 .pkcs1v15 priv (utf8Bytes h) ∧
    verifySignature rt pub h sig =
      rt.rsaVerifyB64 .sha256 .pkcs1v15 pub (utf8Bytes h) sig ∧
    verifySignature rt pub h sig = true := by
  rw [signHash_ok rt hne hk, Except.ok.injEq] at hsig
  refine ⟨hsig.symm, rfl, ?_⟩
  rw [← hsig]
  exact rt.verify_sign _ _ _ _ _ hkp

/-- Witness for C6 at the toy instance. -/
theorem C6_verify_of_sign_witness :
    ("abc" : String) ≠ "" ∧ keyedCrypto.privateKey = some "key" ∧
    toyRt.isKeypair "key" "key" = true ∧
    signHash toyRt keyedCrypto "abc" = .ok "key" ∧
    verifySignature toyRt "key" "abc" "key" = true := by
  have h := C6_verify_of_sign toyRt keyedCrypto "abc" "key" "key" "key"
    (by decide) rfl (by decide) rfl
  exact ⟨by decide, rfl, by decide, rfl, h.2.2⟩

/-- C7: format-valid emails with equal normalizations (lowercase + trim) have
equal `hashEmail` results; `hashEmail` is a pure function of the normalized
email only, its digest is a 96-character lowercase hex string, and `create`
persists the email exactly as supplied, unmutated by normalization. -/
theorem C7_hash_of_normalized_email
    (rt : JsRuntime) (cs : CryptoState) (st : StoreState) (now : Nat)
    (e1 e2 : String) (role : Option UserRole) (status : Option UserStatus)
    (st' : StoreState) (u : UserRec)
    (h1 : isValidEmail e1 = true) (h2 : isValidEmail e2 = true)
    (hnorm : normalizeEmail e1 = normalizeEmail e2) :
    hashEmail rt e1 = hashEmail rt e2 ∧
    hashEmail rt e1 = .ok (rt.sha384hex (normalizeEmail e1)) ∧
    (rt.sha384hex (normalizeEmail e1)).length = 96 ∧
    (rt.sha384hex (normalizeEmail e1)).data.all isLowerHexChar = true ∧
    (create rt cs st now e1 role status = .ok (st', u) → u.email = e1) := by
  refine ⟨?_, hashEmail_ok rt (isValidEmail_ne_empty h1), rt.sha384hex_length _,
          rt.sha384hex_lowerhex _, fun hok => (create_ok_inv hok).1⟩
  rw [hashEmail_ok rt (isValidEmail_ne_empty h1),
      hashEmail_ok rt (isValidEmail_ne_empty h2), hnorm]

/-- Witness for C7 at the toy instance: a case-variant pair of valid emails
hashes identically, and the created record keeps the supplied casing. -/
theorem C7_hash_of_normalized_email_witness :
    isValidEmail "Alice@Example.com" = true ∧
    isValidEmail "alice@example.com" = true ∧
    normalizeEmail "Alice@Example.com" = normalizeEmail "alice@example.com" ∧
    hashEmail toyRt "Alice@Example.com" = hashEmail toyRt "alice@example.com" ∧
    (mkCreatedUser toyRt "key" {} 0 "Alice@Example.com" none none).email =
      "Alice@Example.com" := by
  have h := C7_hash_of_normalized_email toyRt keyedCrypto {} 0
    "Alice@Example.com" "alice@example.com" none none
    ({ users := [mkCreatedUser toyRt "key" {} 0 "Alice@Example.com" none none],
       nextId := 2 })
    (mkCreatedUser toyRt "key" {} 0 "Alice@Example.com" none none)
    (by decide) (by decide) (by decide)
  exact ⟨by decide, by decide, by decide, h.1, h.2.2.2.2 rfl⟩

/-- C8: `getPublicKey` in the state where key initialization has never
completed fails with the uninitialized-key error; after `ensureKeys`
completes it returns the PEM text of the public key — the loaded on-disk
public half when both PEM files existed, the freshly generated one
otherwise. -/
theorem C8_getPublicKey_requires_ensureKeys
    (rt : JsRuntime) (seed : Nat) (fs : KeysDir) (cs0 : CryptoState) :
    getPublicKey { privateKey := none, publicKey := none } =
      .error (.uninitializedKey "Public key not initialized") ∧
    (∃ pem, getPublicKey (ensureKeys rt seed fs cs0).2 = .ok pem) ∧
    (∀ priv pub, fs.privatePem = some priv → fs.publicPem = some pub →
      getPublicKey (ensureKeys rt seed fs cs0).2 = .ok pub) := by
  obtain ⟨de, pp, pq⟩ := fs
  refine ⟨rfl, ?_, ?_⟩
  · cases de <;> cases pp <;> cases pq <;>
      exact ⟨_, rfl⟩
  · intro priv pub hpriv hpub
    cases pp with
    | none => exact absurd hpriv (by simp)
    | some p =>
        cases pq with
        | none => exact absurd hpub (by simp)
        | some q =>
            have hq : q = pub := by
              rw [Option.some.injEq] at hpub
              exact hpub
            cases de <;> simp [ensureKeys, getPublicKey, hq]

/-- Witness for C8 at the toy instance, with a populated keys directory. -/
theorem C8_getPublicKey_requires_ensureKeys_witness :
    ((⟨true, some "p", some "q"⟩ : KeysDir).privatePem = some "p") ∧
    ((⟨true, some "p", some "q"⟩ : KeysDir).publicPem = some "q") ∧
    getPublicKey (ensureKeys toyRt 0 ⟨true, some "p", some "q"⟩ {}).2 = .ok "q" := by
  exact ⟨rfl, rfl,
    (C8_getPublicKey_requires_ensureKeys toyRt 0 ⟨true, some "p", some "q"⟩ {}).2.2
      "p" "q" rfl rfl⟩

/-- C9: a create whose email fails the format regex, and an update requesting
a change to an email failing the regex, both fail with the wrapped
`Invalid email format` error; nothing is persisted or modified (the errors
are raised before any repository write). -/
theorem C9_invalid_email_format_rejected
    (rt : JsRuntime) (cs : CryptoState) (st : StoreState) (now : Nat)
    (email : String) (role : Option UserRole) (status : Option UserStatus)
    (id : Nat) (d : UpdateDto) (u0 : UserRec) (e : String)
    (hfind : st.users.find? (fun u => u.id == id) = some u0)
    (hde : d.email = some e) (hne : e ≠ "") (hdiff : e ≠ u0.email)
    (hbadc : isValidEmail email = false) (hbadu : isValidEmail e = false) :
    create rt cs st now email role status =
      .error (.generic "User creation failed: Invalid email format") ∧
    update rt cs st id d =
      .error (.generic "User update failed: Invalid email format") :=
  ⟨create_invalid rt cs st now role status hbadc,
   update_change_invalid rt cs hfind hde hne hdiff hbadu⟩

/-- Witness for C9 at the toy instance: an email lacking `'@'` for create,
an email containing whitespace for the update. -/
theorem C9_invalid_email_format_rejected_witness :
    demoStore.users.find? (fun u => u.id == 1) = some demoUser1 ∧
    isValidEmail "plainaddress" = false ∧
    isValidEmail "bad email@example.com" = false ∧
    create toyRt keyedCrypto demoStore 0 "plainaddress" none none =
      .error (.generic "User creation failed: Invalid email format") ∧
    update toyRt keyedCrypto demoStore 1 { email := some "bad email@example.com" } =
      .error (.generic "User update failed: Invalid email format") := by
  have h := C9_invalid_email_format_rejected toyRt keyedCrypto demoStore 0
    "plainaddress" none none 1 { email := some "bad email@example.com" }
    demoUser1 "bad email@example.com"
    (by decide) rfl (by decide) (by decide) (by decide) (by decide)
  exact ⟨by decide, by decide, by decide, h.1, h.2⟩

/-- C10: a create with the role argument omitted persists role `'user'`, and
with the status argument omitted persists status `'active'` (the JS default
parameters of `UsersService.create`). -/
theorem C10_create_defaults
    (rt : JsRuntime) (cs : CryptoState) (st : StoreState) (now : Nat)
    (email : String) (priv : String)
    (hval : isValidEmail email = true)
    (hfree : st.users.find? (fun u => u.email == email) = none)
    (hk : cs.privateKey = some priv) :
    ∃ st' u, create rt cs st now email none none = .ok (st', u) ∧
      u.role = .user ∧ u.status = .active :=
  ⟨_, _, create_ok rt st now none none hval hfree hk, rfl, rfl⟩

/-- Witness for C10 at the toy instance. -/
theorem C10_create_defaults_witness :
    isValidEmail "dave@example.com" = true ∧
    demoStore.users.find? (fun u => u.email == "dave@example.com") = none ∧
    keyedCrypto.privateKey = some "key" ∧
    ∃ st' u, create toyRt keyedCrypto demoStore 0 "dave@example.com" none none =
      .ok (st', u) ∧ u.role = .user ∧ u.status = .active := by
  exact ⟨by decide, by decide, rfl,
    C10_create_defaults toyRt keyedCrypto demoStore 0 "dave@example.com" "key"
      (by decide) (by decide) rfl⟩

end UD
